import Mathlib

/-!
Shallow embedding of the detection post-processing code in
src/python/lib/Processor.py (class Processor), and proofs about it.

Modelling conventions:
* numpy float arrays are modelled as real-valued functions; machine
  floating point rounding is not modelled, values are exact reals;
* a slice along the last tensor axis is a function `Row : Nat → Real`;
* one per-scale output tensor of logical shape (1, 3, n, n, 85) is a
  `ScaleTensor` (the batch axis of extent 1 is dropped, the grid is
  square exactly as in the configured output_shapes);
* a Python call that can raise or call sys.exit returns a `PyResult`;
* in-place numpy mutation is modelled, where a claim needs it, by an
  explicit store (a list of tensors addressed by position) threaded
  through the computation.
-/

namespace Processor

/-- A 1-D real vector indexed by natural numbers: a row of a numpy
array, or the attribute axis of an output tensor. Out-of-range reads
are total (the model returns the stored function value); all indexing
facts proved below are about in-range indices. -/
abbrev Row : Type := ℕ → ℝ

/-- One raw output tensor of logical shape (1, 3, n, n, 85): the
batch axis is dropped, `data` is indexed by anchor, grid row gy, grid
column gx, and attribute k.  The grid is square (n × n), matching the
configured `output_shapes` (1,3,80,80,85), (1,3,40,40,85),
(1,3,20,20,85) in `Processor.__init__`. -/
structure ScaleTensor where
  n : ℕ
  data : ℕ → ℕ → ℕ → ℕ → ℝ

/-- Default tensor used for out-of-range list reads. -/
def defaultTensor : ScaleTensor := ⟨0, fun _ _ _ _ => 0⟩

instance : Inhabited ScaleTensor := ⟨defaultTensor⟩

/-- The observable outcome of a Python call in this module: a normal
return value, an IndexError (out-of-bounds numpy indexing), a
ValueError (numpy reshape with a mismatched element count), or a
process exit via sys.exit(). -/
inductive PyResult (α : Type) where
  | ok : α → PyResult α
  | indexError : PyResult α
  | valueError : PyResult α
  | exit : PyResult α

/-- Model of `Processor.sigmoid` (lines 176-177): `1 / (1 + math.exp(-x))`. -/
noncomputable def sigmoid (x : ℝ) : ℝ := 1 / (1 + Real.exp (-x))

/-- Model of `Processor.sigmoid_v` (lines 179-180):
`np.reciprocal(np.exp(-array) + 1.0)`, elementwise over an array. -/
noncomputable def sigmoid_v {ι : Type} (f : ι → ℝ) : ι → ℝ :=
  fun i => (Real.exp (-(f i)) + 1)⁻¹

/-- Model of `sigmoid_v` applied to a whole `ScaleTensor`
(the `out = self.sigmoid_v(out)` step on line 138). -/
noncomputable def sigmoid_t (t : ScaleTensor) : ScaleTensor :=
  ⟨t.n, fun a gy gx => sigmoid_v (t.data a gy gx)⟩

/-- Model of `self.strides = np.array([8., 16., 32.])` (line 52). -/
noncomputable def strides : List ℝ := [8, 16, 32]

/-- The per-scale anchor pairs: `anchors` (lines 61-65) reshaped to
`self.anchor_grid` (line 76); broadcasting against a tensor of shape
(1, 3, n, n, 2) selects, for anchor index a, the pair
`anchor_grid[scale][a]`. -/
noncomputable def anchor_grid : List (List (ℝ × ℝ)) :=
  [[(10, 13), (16, 30), (33, 23)],
   [(30, 61), (62, 45), (59, 119)],
   [(116, 90), (156, 198), (373, 326)]]

/-- Model of `self.output_shapes` (lines 46-50). -/
def output_shapes : List (ℕ × ℕ × ℕ × ℕ × ℕ) :=
  [(1, 3, 80, 80, 85), (1, 3, 40, 40, 85), (1, 3, 20, 20, 85)]

/-- Model of `Processor.make_grid` (lines 159-174):
`nx_vec = np.arange(nx)`, `ny_vec = np.arange(ny)`,
`yv, xv = np.meshgrid(ny_vec, nx_vec)` (default xy indexing, so the
results have shape (nx, ny) with `yv[i][j] = ny_vec[j]` and
`xv[i][j] = nx_vec[i]`), `grid = np.stack((yv, xv), axis=2)`, then
`grid.reshape(1, 1, ny, nx, 2)` (a row-major flat reinterpretation).
The returned function gives the element at conceptual position
(0, 0, gy, gx, k) of the reshaped array. -/
def make_grid (nx ny : ℕ) : ℕ → ℕ → ℕ → ℕ :=
  let nx_vec := List.range nx
  let ny_vec := List.range ny
  let yv := nx_vec.map (fun _ => ny_vec)
  let xv := nx_vec.map (fun i => ny_vec.map (fun _ => i))
  let grid := List.zipWith (fun r1 r2 => List.zipWith (fun u v => [u, v]) r1 r2) yv xv
  let flat := grid.flatten.flatten
  fun gy gx k => flat.getD ((gy * nx + gx) * 2 + k) 0

/-- The in-place decode step of `extract_boxes` (lines 146-147), on a
tensor that has already been passed through `sigmoid_v`:
`out[..., 0:2] = (out[..., 0:2] * 2. - 0.5 + grid) * stride` and
`out[..., 2:4] = (out[..., 2:4] * 2) ** 2 * anchor`, with
`grid = make_grid(width, height)` for the square width = height = n,
broadcast so that attribute k < 2 receives grid component k, and the
anchor pair broadcast so that attribute 2 receives the anchor width
and attribute 3 the anchor height. -/
noncomputable def decode_assign (t : ScaleTensor) (stride : ℝ) (anchor : List (ℝ × ℝ)) :
    ScaleTensor :=
  ⟨t.n, fun a gy gx k =>
    if k < 2 then (t.data a gy gx k * 2 - 0.5 + (make_grid t.n t.n gy gx k : ℝ)) * stride
    else if k < 4 then
      (t.data a gy gx k * 2) ^ 2 *
        (if k = 2 then (anchor.getD a (0, 0)).1 else (anchor.getD a (0, 0)).2)
    else t.data a gy gx k⟩

/-- Model of `out.reshape((1, 3 * width * height, 85))` (line 148): row i of the
reshaped (1, 3·n·n, 85) array is the attribute row of the cell with
anchor i / (n·n), grid row (i / n) % n, grid column i % n. -/
def reshape_rows (t : ScaleTensor) : List Row :=
  (List.range (3 * t.n * t.n)).map
    (fun i => fun k => t.data (i / (t.n * t.n)) (i / t.n % t.n) (i % t.n) k)

/-- Python `zip` over three sequences (line 144), truncating to the
shortest. -/
def zip3 {α β γ : Type} : List α → List β → List γ → List (α × β × γ)
  | a :: as, b :: bs, c :: cs => (a, b, c) :: zip3 as bs cs
  | _, _, _ => []

/-- Model of `Processor.xywh2xyxy` (lines 248-257) on one 4-column row:
`y = np.zeros_like(x)` then the four corner assignments. -/
noncomputable def xywh2xyxy (x : Row) : Row := fun k =>
  if k = 0 then x 0 - x 2 / 2
  else if k = 1 then x 1 - x 3 / 2
  else if k = 2 then x 0 + x 2 / 2
  else if k = 3 then x 1 + x 3 / 2
  else 0

/-- The column slice `pred[:, :4]` (line 153) of one row. -/
noncomputable def slice4 (r : Row) : Row := fun k => if k < 4 then r k else 0

/-- First loop of `extract_boxes` (lines 137-142): every tensor is
passed through `sigmoid_v` (the per-scale grids are recomputed inside
`decode_assign`). -/
noncomputable def extract_boxes_scaled (output : List ScaleTensor) : List ScaleTensor :=
  output.map sigmoid_t

/-- Second loop of `extract_boxes` (lines 144-149): zip the sigmoided
tensors with `self.strides` and `self.anchor_grid`, decode in place and
reshape each tensor to a list of rows. -/
noncomputable def extract_boxes_z (output : List ScaleTensor) : List (List Row) :=
  (zip3 (extract_boxes_scaled output) strides anchor_grid).map
    (fun e => reshape_rows (decode_assign e.1 e.2.1 e.2.2))

/-- Model of `pred = np.concatenate(z, 1)` (line 150). -/
noncomputable def extract_boxes_pred (output : List ScaleTensor) : List Row :=
  (extract_boxes_z output).flatten

/-- Model of `xc = pred[..., 4] > conf_thres; pred = pred[xc]` (lines 151-152). -/
noncomputable def extract_boxes_kept (output : List ScaleTensor) (conf_thres : ℝ) : List Row :=
  (extract_boxes_pred output).filter (fun r => decide (conf_thres < r 4))

/-- Model of `Processor.extract_boxes` (lines 131-154); the default value of its
`conf_thres` parameter is 0.5.  Returns
`boxes = self.xywh2xyxy(pred[:, :4])`. -/
noncomputable def extract_boxes (output : List ScaleTensor) (conf_thres : ℝ) : List Row :=
  (extract_boxes_kept output conf_thres).map (fun r => xywh2xyxy (slice4 r))

/-- Model of `Processor.extract_class_grids` (lines 122-129):
`object_probs = sigmoid_v(out[..., 4:5])`,
`class_probs = sigmoid_v(out[..., 5:])`,
`obj_class_probs = class_probs * object_probs` (object channel
broadcast over the class axis).  Class index c of the result reads raw
attribute 5 + c. -/
noncomputable def extract_class_grids (output : List ScaleTensor) :
    List (ℕ → ℕ → ℕ → ℕ → ℝ) :=
  output.map (fun out =>
    let object_probs : ℕ → ℕ → ℕ → ℕ → ℝ := fun a gy gx _ => sigmoid_v (out.data a gy gx) 4
    let class_probs : ℕ → ℕ → ℕ → ℕ → ℝ := fun a gy gx c => sigmoid_v (out.data a gy gx) (5 + c)
    fun a gy gx c => class_probs a gy gx c * object_probs a gy gx c)

/-- The confidence mask of `non_max_suppression` (line 187):
`xc = pred[..., 4] > 0.1`.  The comparison constant is the literal
`0.1` from the source; the `conf_thres` parameter of
`non_max_suppression` is in scope but not used here. -/
noncomputable def nms_conf_mask (conf_thres : ℝ) (r : Row) : Bool :=
  decide ((0.1 : ℝ) < r 4)

/-- Model of `Processor.non_max_suppression` (lines 184-237) for a batched
prediction array `pred` (a list of batches, each a list of 85-column
rows).  Line 186 evaluates `pred[0]`, an IndexError when the batch
axis is empty.  Inside the loop the first batch is filtered by
`nms_conf_mask`, class columns are fused with the objectness column
(line 201, `x[:, 5:] *= x[:, 4:5]`), line 205 evaluates `x[0]` (an
IndexError when no row passed the filter), and otherwise line 211
reaches the unconditional `sys.exit()`.  No path returns normally. -/
noncomputable def non_max_suppression (pred : List (List Row)) (conf_thres iou_thres : ℝ) :
    PyResult (List (Option (List Row))) :=
  match pred with
  | [] => PyResult.indexError
  | x :: _ =>
    let xf := x.filter (nms_conf_mask conf_thres)
    let xm := xf.map (fun r => fun k => if 5 ≤ k then r k * r 4 else r k)
    if xm.length = 0 then PyResult.indexError
    else PyResult.exit

/-- Model of `Processor.nms` (lines 240-246): an empty `boxes` returns `[]`;
otherwise `boxes.astype(float)` (a pure conversion, the identity in
this real-valued model) and the function falls off its end, returning
Python `None`.  `scores`, `iou_thres` and `max_det` are never used. -/
def nms (boxes : List (ℝ × ℝ × ℝ × ℝ)) (scores : List ℝ) (iou_thres : ℝ) (max_det : ℕ) :
    PyResult (Option (List (ℝ × ℝ × ℝ × ℝ))) :=
  if boxes.length = 0 then PyResult.ok (some [])
  else PyResult.ok none

/-- A reshaped output as built by `detect` (line 85): the target shape
together with the flat data. -/
structure Reshaped where
  shape : ℕ × ℕ × ℕ × ℕ × ℕ
  data : List ℝ

/-- Element count of a 5-dimensional shape. -/
def vol (s : ℕ × ℕ × ℕ × ℕ × ℕ) : ℕ := s.1 * s.2.1 * s.2.2.1 * s.2.2.2.1 * s.2.2.2.2

/-- The reshape loop of `detect` (lines 83-85): numpy `reshape` raises
ValueError exactly when the element count of the flat output differs
from the element count of the target shape. -/
def reshape_loop : List (List ℝ × (ℕ × ℕ × ℕ × ℕ × ℕ)) → PyResult (List Reshaped)
  | [] => PyResult.ok []
  | (o, s) :: rest =>
    if o.length = vol s then
      match reshape_loop rest with
      | PyResult.ok l => PyResult.ok (⟨s, o⟩ :: l)
      | PyResult.indexError => PyResult.indexError
      | PyResult.valueError => PyResult.valueError
      | PyResult.exit => PyResult.exit
    else PyResult.valueError

/-- Model of `Processor.detect` (lines 78-86), after the external inference
engine call: `zip(outputs, self.output_shapes)` (truncating like
Python zip) and reshape each flat output to its configured shape; the
reshaped list itself is returned, with no thresholding and no box
extraction. -/
def detect (outputs : List (List ℝ)) : PyResult (List Reshaped) :=
  reshape_loop (outputs.zip output_shapes)

/-- The tensor view of a well-formed `Reshaped` whose shape is
(1, 3, n, n, 85): row-major access into the flat data. -/
def to_scale_tensor (r : Reshaped) : ScaleTensor :=
  ⟨r.shape.2.2.1, fun a gy gx k =>
    r.data.getD (((a * r.shape.2.2.1 + gy) * r.shape.2.2.2.1 + gx) * r.shape.2.2.2.2 + k) 0⟩

/-- An all-zero scale tensor with an n × n grid. -/
def zscale (n : ℕ) : ScaleTensor := ⟨n, fun _ _ _ _ => 0⟩

/-- The store used to model in-place numpy mutation: tensors addressed
by their position, reads through `List.getD`, in-place writes through
`List.set`, fresh allocations by appending at the end. -/
abbrev Store : Type := List ScaleTensor

/-- First loop of `extract_boxes` (lines 137-142) against the store:
`out = self.sigmoid_v(out)` binds the loop variable to a freshly
allocated array (sigmoid_v allocates, it does not write its argument);
the returned ids are those of the fresh arrays. -/
noncomputable def sig_loop : Store → List ℕ → Store × List ℕ
  | s, [] => (s, [])
  | s, i :: is =>
    let t := s.getD i defaultTensor
    let s1 := s ++ [sigmoid_t t]
    let r := sig_loop s1 is
    (r.1, s.length :: r.2)

/-- Second loop of `extract_boxes` (lines 144-149) against the store:
the slice assignments on lines 146-147 write the array in place
(`List.set` at its id); the reshape on line 148 is a read-only view. -/
noncomputable def decode_loop : Store → List (ℕ × ℝ × List (ℝ × ℝ)) → Store × List (List Row)
  | s, [] => (s, [])
  | s, (j, st, anc) :: rest =>
    let t' := decode_assign (s.getD j defaultTensor) st anc
    let s1 := s.set j t'
    let r := decode_loop s1 rest
    (r.1, reshape_rows t' :: r.2)

/-- Model of `Processor.extract_boxes` with the array store made explicit: the
input is a list of ids into the store; the final store is returned
together with the boxes. -/
noncomputable def extract_boxes_st (s : Store) (ids : List ℕ) (conf_thres : ℝ) :
    Store × List Row :=
  let r1 := sig_loop s ids
  let r2 := decode_loop r1.1 (zip3 r1.2 strides anchor_grid)
  let pred := r2.2.flatten
  (r2.1,
    (pred.filter (fun r => decide (conf_thres < r 4))).map (fun r => xywh2xyxy (slice4 r)))

/-- Model of `Processor.extract_class_grids` with the array store made
explicit: `sigmoid_v` and the elementwise product allocate fresh
arrays (lines 125-127); nothing is ever written in place. -/
noncomputable def extract_class_grids_st (s : Store) (ids : List ℕ) :
    Store × List (ℕ → ℕ → ℕ → ℕ → ℝ) :=
  match ids with
  | [] => (s, [])
  | i :: is =>
    let t := s.getD i defaultTensor
    let object_probs : ℕ → ℕ → ℕ → ℕ → ℝ := fun a gy gx _ => sigmoid_v (t.data a gy gx) 4
    let class_probs : ℕ → ℕ → ℕ → ℕ → ℝ := fun a gy gx c => sigmoid_v (t.data a gy gx) (5 + c)
    let pg : ℕ → ℕ → ℕ → ℕ → ℝ := fun a gy gx c => class_probs a gy gx c * object_probs a gy gx c
    let s1 := s ++ [⟨t.n, object_probs⟩, ⟨t.n, class_probs⟩, ⟨t.n, pg⟩]
    let r := extract_class_grids_st s1 is
    (r.1, pg :: r.2)

/-- A candidate row all of whose attributes are 0.3 (in particular its
objectness column is 0.3). -/
noncomputable def row03 : Row := fun _ => 0.3

/-- A candidate row all of whose attributes are 0.5. -/
noncomputable def row05 : Row := fun _ => 0.5

/-- A flat all-zero buffer of n elements. -/
noncomputable def zeros (n : ℕ) : List ℝ := List.replicate n 0

/-- Three all-zero flat outputs whose element counts match the three
configured output shapes: 1·3·80·80·85 = 1632000, 1·3·40·40·85 =
408000, 1·3·20·20·85 = 102000. -/
noncomputable def zero_outputs : List (List ℝ) :=
  [zeros 1632000, zeros 408000, zeros 102000]

/-- A concrete surviving candidate row: anchor 0, cell (0, 0) of the
decoded all-zero 1 × 1 tensor with stride 8 and the first configured
anchor list. -/
noncomputable def r5row : Row := fun k =>
  (decode_assign (sigmoid_t (zscale 1)) 8 [(10, 13), (16, 30), (33, 23)]).data 0 0 0 k

/-- The corner-form box built from `r5row`. -/
noncomputable def b5box : Row := xywh2xyxy (slice4 r5row)

/-- The reshaped list that `detect` returns on `zero_outputs`. -/
noncomputable def zero_reshaped : List Reshaped :=
  [⟨(1, 3, 80, 80, 85), zeros 1632000⟩,
   ⟨(1, 3, 40, 40, 85), zeros 408000⟩,
   ⟨(1, 3, 20, 20, 85), zeros 102000⟩]

/-! ## Basic lemmas about the activation -/

/-- The elementwise `sigmoid_v` computes the scalar `sigmoid` at every
position (`np.reciprocal(np.exp(-x) + 1.0) = 1 / (1 + math.exp(-x))`). -/
theorem sigmoid_v_apply {ι : Type} (f : ι → ℝ) (i : ι) : sigmoid_v f i = sigmoid (f i) := by
  unfold sigmoid_v sigmoid
  rw [one_div, add_comm]

theorem sigmoid_nonneg (x : ℝ) : 0 ≤ sigmoid x := by
  unfold sigmoid
  positivity

theorem sigmoid_le_one (x : ℝ) : sigmoid x ≤ 1 := by
  unfold sigmoid
  rw [div_le_one (by positivity)]
  linarith [Real.exp_pos (-x)]

theorem sigmoid_zero : sigmoid 0 = 1 / 2 := by
  unfold sigmoid
  rw [neg_zero, Real.exp_zero]
  norm_num

/-! ## List helper lemmas -/

theorem zipWith_map_map {α β γ δ : Type} (l : List α) (f : α → β) (g : α → γ)
    (h : β → γ → δ) :
    List.zipWith h (l.map f) (l.map g) = l.map fun x => h (f x) (g x) := by
  induction l with
  | nil => rfl
  | cons a t ih => simp [ih]

theorem zipWith_self_map {α γ δ : Type} (l : List α) (g : α → γ) (h : α → γ → δ) :
    List.zipWith h l (l.map g) = l.map fun x => h x (g x) := by
  induction l with
  | nil => rfl
  | cons a t ih => simp [ih]

theorem flatten_flatMap {α β : Type} (l : List α) (F : α → List (List β)) :
    (l.flatMap F).flatten = l.flatMap fun x => (F x).flatten := by
  induction l with
  | nil => rfl
  | cons a t ih => simp [List.flatMap_cons, ih]

/-- Indexing into a concatenation of equally sized chunks. -/
theorem flatMap_chunk_getD (c : ℕ) (i : ℕ) :
    ∀ (m : ℕ) (G : ℕ → List ℕ), (∀ j, (G j).length = c) → i < m → ∀ r, r < c →
      ((List.range m).flatMap G).getD (i * c + r) 0 = (G i).getD r 0 := by
  induction i with
  | zero =>
    intro m G hlen hm r hr
    obtain ⟨m', rfl⟩ : ∃ m', m = m' + 1 := ⟨m - 1, by omega⟩
    rw [List.range_succ_eq_map]
    rw [List.flatMap_cons]
    rw [Nat.zero_mul, Nat.zero_add]
    rw [← hlen 0] at hr
    exact List.getD_append _ _ _ _ hr
  | succ i ih =>
    intro m G hlen hm r hr
    obtain ⟨m', rfl⟩ : ∃ m', m = m' + 1 := ⟨m - 1, by omega⟩
    rw [List.range_succ_eq_map]
    rw [List.flatMap_cons]
    have hidx : (i + 1) * c + r = (G 0).length + (i * c + r) := by
      rw [hlen 0]; ring
    rw [hidx]
    have happ : ∀ (l1 l2 : List ℕ) (n : ℕ), (l1 ++ l2).getD (l1.length + n) 0 = l2.getD n 0 := by
      intro l1 l2 n
      simp [List.getD, List.getElem?_append_right]
    rw [happ]
    have hmap : ((List.range m').map Nat.succ).flatMap G = (List.range m').flatMap fun j => G (j + 1) := by
      rw [List.flatMap_map]
    rw [hmap]
    exact ih m' (fun j => G (j + 1)) (fun j => hlen (j + 1)) (by omega) r hr

/-- The flat buffer built inside `make_grid`, in flatMap form. -/
theorem make_grid_flat (nx ny gy gx k : ℕ) :
    make_grid nx ny gy gx k
      = ((List.range nx).flatMap fun i => (List.range ny).flatMap fun j => [j, i]).getD
          ((gy * nx + gx) * 2 + k) 0 := by
  have hgrid : (List.zipWith (fun r1 r2 => List.zipWith (fun u v => [u, v]) r1 r2)
        ((List.range nx).map fun _ => List.range ny)
        ((List.range nx).map fun i => (List.range ny).map fun _ => i)).flatten.flatten
      = (List.range nx).flatMap fun i => (List.range ny).flatMap fun j => [j, i] := by
    rw [zipWith_map_map]
    simp only [zipWith_self_map]
    rw [← List.flatMap_def, flatten_flatMap]
    simp only [← List.flatMap_def]
  simp only [make_grid]
  rw [hgrid]

/-- What `make_grid` actually stores at cell (gy, gx): the flat
reinterpretation of the stacked meshgrid.  With t = gy·nx + gx, the
first component is t % ny and the second is t / ny. -/
theorem make_grid_layout (nx ny gy gx : ℕ) (hy : gy < ny) (hx : gx < nx) :
    make_grid nx ny gy gx 0 = (gy * nx + gx) % ny ∧
      make_grid nx ny gy gx 1 = (gy * nx + gx) / ny := by
  have hny : 0 < ny := by omega
  set t := gy * nx + gx with ht
  have h1 : t < (gy + 1) * nx := by
    rw [Nat.succ_mul]
    omega
  have h2 : (gy + 1) * nx ≤ ny * nx := Nat.mul_le_mul_right nx (by omega)
  have htlt : t < ny * nx := lt_of_lt_of_le h1 h2
  have hdiv : t / ny < nx := Nat.div_lt_of_lt_mul htlt
  have hmod : t % ny < ny := Nat.mod_lt t hny
  have hpairlen : ∀ (l : List ℕ) (f g : ℕ → ℕ),
      (l.flatMap fun j => [f j, g j]).length = l.length * 2 := by
    intro l f g
    induction l with
    | nil => rfl
    | cons a s ih =>
      rw [List.flatMap_cons, List.length_append, ih]
      simp [Nat.succ_mul]
      omega
  have hchunklen : ∀ i : ℕ, ((List.range ny).flatMap fun j => [j, i]).length = ny * 2 := by
    intro i
    have := hpairlen (List.range ny) (fun j => j) (fun _ => i)
    simpa using this
  have hsum : ny * (t / ny) + t % ny = t := Nat.div_add_mod t ny
  constructor
  · rw [make_grid_flat]
    have hidx : t * 2 + 0 = (t / ny) * (ny * 2) + ((t % ny) * 2 + 0) := by
      calc t * 2 + 0 = (ny * (t / ny) + t % ny) * 2 + 0 := by rw [hsum]
      _ = (t / ny) * (ny * 2) + ((t % ny) * 2 + 0) := by ring
    rw [hidx]
    rw [flatMap_chunk_getD (ny * 2) (t / ny) nx
      (fun i => (List.range ny).flatMap fun j => [j, i]) hchunklen hdiv _ (by omega)]
    rw [flatMap_chunk_getD 2 (t % ny) ny (fun j => [j, t / ny]) (fun _ => rfl) hmod 0 (by omega)]
    rfl
  · rw [make_grid_flat]
    have hidx : t * 2 + 1 = (t / ny) * (ny * 2) + ((t % ny) * 2 + 1) := by
      calc t * 2 + 1 = (ny * (t / ny) + t % ny) * 2 + 1 := by rw [hsum]
      _ = (t / ny) * (ny * 2) + ((t % ny) * 2 + 1) := by ring
    rw [hidx]
    rw [flatMap_chunk_getD (ny * 2) (t / ny) nx
      (fun i => (List.range ny).flatMap fun j => [j, i]) hchunklen hdiv _ (by omega)]
    rw [flatMap_chunk_getD 2 (t % ny) ny (fun j => [j, t / ny]) (fun _ => rfl) hmod 1 (by omega)]
    rfl

/-- On a square grid the cell (gy, gx) stores the pair (gx, gy). -/
theorem make_grid_square (n gy gx : ℕ) (hy : gy < n) (hx : gx < n) :
    make_grid n n gy gx 0 = gx ∧ make_grid n n gy gx 1 = gy := by
  obtain ⟨h0, h1⟩ := make_grid_layout n n gy gx hy hx
  constructor
  · rw [h0, Nat.mul_comm, Nat.mul_add_mod, Nat.mod_eq_of_lt hx]
  · rw [h1, Nat.mul_comm, Nat.mul_add_div (by omega), Nat.div_eq_of_lt hx, Nat.add_zero]

/-! ## Claim C2: make_grid layout -/

/-- C2 counterexample: for width = 2 and height = 3 the claim fails:
the cell at (gy, gx) = (1, 0) of the conceptual (1,1,3,2,2) grid
stores (2, 0), which is neither the claimed (gy, gx) = (1, 0) nor the
other reading (gx, gy) = (0, 1); the flat reshape scrambles non-square
grids. -/
theorem C2_make_grid_counterexample :
    make_grid 2 3 1 0 0 = 2 ∧ make_grid 2 3 1 0 1 = 0 ∧
      ¬ (make_grid 2 3 1 0 0 = 1 ∧ make_grid 2 3 1 0 1 = 0) ∧
      ¬ (make_grid 2 3 1 0 0 = 0 ∧ make_grid 2 3 1 0 1 = 1) := by
  decide

/-- C2 (amended): with t = gy·width + gx, the cell at (gy, gx) of
make_grid width height stores (t % height, t / height); in the square
case width = height this is (gx, gy) — the swap is the opposite of the
claimed (gy, gx), and for width ≠ height the layout is a flat
mod/div scramble, not a coordinate pair. -/
theorem C2_make_grid_layout_amended (nx ny gy gx : ℕ) (hy : gy < ny) (hx : gx < nx) :
    (make_grid nx ny gy gx 0 = (gy * nx + gx) % ny ∧
      make_grid nx ny gy gx 1 = (gy * nx + gx) / ny) ∧
    (nx = ny → make_grid nx ny gy gx 0 = gx ∧ make_grid nx ny gy gx 1 = gy) := by
  refine ⟨make_grid_layout nx ny gy gx hy hx, fun h => ?_⟩
  subst h
  exact make_grid_square nx gy gx hy hx

/-- Witness for C2 (amended) at the concrete cell (1, 0) of a 2 × 3
grid. -/
theorem C2_make_grid_layout_amended_witness :
    (make_grid 2 3 1 0 0 = (1 * 2 + 0) % 3 ∧ make_grid 2 3 1 0 1 = (1 * 2 + 0) / 3) ∧
      (2 = 3 → make_grid 2 3 1 0 0 = 0 ∧ make_grid 2 3 1 0 1 = 1) :=
  C2_make_grid_layout_amended 2 3 1 0 (by decide) (by decide)

/-! ## Claim C1: the decode formulas of extract_boxes -/

/-- C1: for every raw scale tensor, anchor index and in-range grid
cell, the decode applied by `extract_boxes` (sigmoid once, then the
in-place slice assignments) satisfies the reference formulas:
cx = (sigmoid(tx)·2 − 0.5 + gx)·stride,
cy = (sigmoid(ty)·2 − 0.5 + gy)·stride,
w = (sigmoid(tw)·2)² · anchor_w, h = (sigmoid(th)·2)² · anchor_h,
with sigmoid applied exactly once to each raw value. -/
theorem C1_decode_formula (t : ScaleTensor) (stride : ℝ) (anchor : List (ℝ × ℝ))
    (a gy gx : ℕ) (hy : gy < t.n) (hx : gx < t.n) :
    (decode_assign (sigmoid_t t) stride anchor).data a gy gx 0
        = (sigmoid (t.data a gy gx 0) * 2 - 0.5 + (gx : ℝ)) * stride ∧
    (decode_assign (sigmoid_t t) stride anchor).data a gy gx 1
        = (sigmoid (t.data a gy gx 1) * 2 - 0.5 + (gy : ℝ)) * stride ∧
    (decode_assign (sigmoid_t t) stride anchor).data a gy gx 2
        = (sigmoid (t.data a gy gx 2) * 2) ^ 2 * (anchor.getD a (0, 0)).1 ∧
    (decode_assign (sigmoid_t t) stride anchor).data a gy gx 3
        = (sigmoid (t.data a gy gx 3) * 2) ^ 2 * (anchor.getD a (0, 0)).2 := by
  obtain ⟨hg0, hg1⟩ := make_grid_square t.n gy gx hy hx
  refine ⟨?_, ?_, ?_, ?_⟩ <;>
    simp [decode_assign, sigmoid_t, sigmoid_v_apply, hg0, hg1]

/-- Witness for C1 on the all-zero 1 × 1 tensor with stride 8 and the
first configured anchor. -/
theorem C1_decode_formula_witness :
    (decode_assign (sigmoid_t (zscale 1)) 8 [(10, 13)]).data 0 0 0 0
        = (sigmoid ((zscale 1).data 0 0 0 0) * 2 - 0.5 + ((0 : ℕ) : ℝ)) * 8 ∧
    (decode_assign (sigmoid_t (zscale 1)) 8 [(10, 13)]).data 0 0 0 1
        = (sigmoid ((zscale 1).data 0 0 0 1) * 2 - 0.5 + ((0 : ℕ) : ℝ)) * 8 ∧
    (decode_assign (sigmoid_t (zscale 1)) 8 [(10, 13)]).data 0 0 0 2
        = (sigmoid ((zscale 1).data 0 0 0 2) * 2) ^ 2 * (([((10 : ℝ), (13 : ℝ))]).getD 0 (0, 0)).1 ∧
    (decode_assign (sigmoid_t (zscale 1)) 8 [(10, 13)]).data 0 0 0 3
        = (sigmoid ((zscale 1).data 0 0 0 3) * 2) ^ 2 * (([((10 : ℝ), (13 : ℝ))]).getD 0 (0, 0)).2 :=
  C1_decode_formula (zscale 1) 8 [(10, 13)] 0 0 0 (by norm_num [zscale]) (by norm_num [zscale])

/-! ## Claim C3: class score fusion -/

/-- C3: every entry of every class grid produced by
`extract_class_grids` is sigmoid(raw_class_c) · sigmoid(raw_obj): the
class probability is multiplied by the objectness. -/
theorem C3_class_fusion (output : List ScaleTensor) (i : ℕ) (h : i < output.length)
    (a gy gx c : ℕ) :
    (extract_class_grids output).getD i (fun _ _ _ _ => 0) a gy gx c
      = sigmoid ((output.getD i defaultTensor).data a gy gx (5 + c))
        * sigmoid ((output.getD i defaultTensor).data a gy gx 4) := by
  have hout : output.getD i defaultTensor = output[i] := by
    simp [List.getD_eq_getElem?_getD, List.getElem?_eq_getElem h]
  rw [hout]
  simp [extract_class_grids, List.getD_eq_getElem?_getD, List.getElem?_map,
    List.getElem?_eq_getElem h, sigmoid_v_apply]

/-- Witness for C3 on a single all-zero tensor. -/
theorem C3_class_fusion_witness :
    (extract_class_grids [zscale 1]).getD 0 (fun _ _ _ _ => 0) 0 0 0 0
      = sigmoid ((([zscale 1] : List ScaleTensor).getD 0 defaultTensor).data 0 0 0 (5 + 0))
        * sigmoid ((([zscale 1] : List ScaleTensor).getD 0 defaultTensor).data 0 0 0 4) :=
  C3_class_fusion [zscale 1] 0 (by simp) 0 0 0 0

/-! ## Claim C4: the confidence filtering sites -/

/-- C4 counterexample: in the filtering site of `non_max_suppression`
a candidate with objectness 0.3 is kept although the per-call
threshold is 0.5, because the comparison uses the literal 0.1 from
line 187, not the conf_thres parameter; with that row the call runs
into sys.exit. -/
theorem C4_conf_filter_counterexample :
    nms_conf_mask 0.5 row03 = true ∧ ¬ (row03 4 > 0.5) ∧
      non_max_suppression [[row03]] 0.5 0.6 = PyResult.exit := by
  have hmask : nms_conf_mask 0.5 row03 = true := by
    simp only [nms_conf_mask, row03, decide_eq_true_eq]
    norm_num
  refine ⟨hmask, ?_, ?_⟩
  · simp only [row03, gt_iff_lt, not_lt]
    norm_num
  · simp [non_max_suppression, hmask]

/-- C4 (amended): `extract_boxes` keeps exactly the concatenated
candidates whose sigmoid-activated objectness is strictly greater than
its per-call conf_thres (whose default is 0.5), but the filtering site
inside `non_max_suppression` compares the objectness against the
hard-coded literal 0.1 and ignores its conf_thres parameter. -/
theorem C4_conf_filter_sites :
    (∀ (output : List ScaleTensor) (conf_thres : ℝ) (r : Row),
        r ∈ extract_boxes_kept output conf_thres ↔
          r ∈ extract_boxes_pred output ∧ conf_thres < r 4) ∧
    (∀ (conf_thres : ℝ) (r : Row), nms_conf_mask conf_thres r = true ↔ (0.1 : ℝ) < r 4) := by
  constructor
  · intro output conf r
    simp [extract_boxes_kept, List.mem_filter]
  · intro conf r
    simp [nms_conf_mask]

/-- Witness for C4 (amended) at concrete arguments. -/
theorem C4_conf_filter_sites_witness :
    (row03 ∈ extract_boxes_kept [] 0 ↔ row03 ∈ extract_boxes_pred [] ∧ (0 : ℝ) < row03 4) ∧
      (nms_conf_mask 0 row03 = true ↔ (0.1 : ℝ) < row03 4) :=
  ⟨C4_conf_filter_sites.1 [] 0 row03, C4_conf_filter_sites.2 0 row03⟩

/-! ## Decomposition of the candidate list of extract_boxes -/

theorem zip3_mem {α β γ : Type} :
    ∀ (as : List α) (bs : List β) (cs : List γ) (e : α × β × γ),
      e ∈ zip3 as bs cs → e.1 ∈ as ∧ e.2.1 ∈ bs ∧ e.2.2 ∈ cs := by
  intro as
  induction as with
  | nil => intro bs cs e h; simp [zip3] at h
  | cons a as ih =>
    intro bs cs e h
    cases bs with
    | nil => simp [zip3] at h
    | cons b bs =>
      cases cs with
      | nil => simp [zip3] at h
      | cons c cs =>
        simp only [zip3] at h
        rcases List.mem_cons.mp h with h1 | h1
        · subst h1
          exact ⟨List.mem_cons_self _ _, List.mem_cons_self _ _, List.mem_cons_self _ _⟩
        · obtain ⟨ha, hb, hc⟩ := ih bs cs e h1
          exact ⟨List.mem_cons_of_mem _ ha, List.mem_cons_of_mem _ hb,
            List.mem_cons_of_mem _ hc⟩

theorem mem_reshape_rows (t : ScaleTensor) (r : Row) (h : r ∈ reshape_rows t) :
    ∃ a gy gx, r = fun k => t.data a gy gx k := by
  simp only [reshape_rows, List.mem_map, List.mem_range] at h
  obtain ⟨i, _, hr⟩ := h
  exact ⟨_, _, _, hr.symm⟩

/-- Every concatenated candidate row of `extract_boxes` is the
attribute row of some cell of some decoded tensor, with the stride
drawn from `strides` and the anchors from `anchor_grid`. -/
theorem mem_pred_decomp (output : List ScaleTensor) (r : Row)
    (h : r ∈ extract_boxes_pred output) :
    ∃ t0 ∈ output, ∃ anc ∈ anchor_grid, ∃ st ∈ strides, ∃ a gy gx,
      r = fun k => (decode_assign (sigmoid_t t0) st anc).data a gy gx k := by
  rw [extract_boxes_pred] at h
  obtain ⟨rows, hrows, hr⟩ := List.mem_flatten.mp h
  rw [extract_boxes_z] at hrows
  obtain ⟨e, he, hfe⟩ := List.mem_map.mp hrows
  obtain ⟨h1, h2, h3⟩ := zip3_mem _ _ _ e he
  obtain ⟨t0, ht0, hst⟩ := List.mem_map.mp h1
  rw [← hfe] at hr
  obtain ⟨a, gy, gx, hreq⟩ := mem_reshape_rows _ r hr
  refine ⟨t0, ht0, e.2.2, h3, e.2.1, h2, a, gy, gx, ?_⟩
  rw [hreq, hst]

/-- The configured anchor dimensions are all nonnegative (reads beyond
the configured lists default to (0, 0), also nonnegative). -/
theorem anchor_nonneg (anc : List (ℝ × ℝ)) (h : anc ∈ anchor_grid) (a : ℕ) :
    0 ≤ (anc.getD a (0, 0)).1 ∧ 0 ≤ (anc.getD a (0, 0)).2 := by
  have hdflt : ∀ (l : List (ℝ × ℝ)), (∀ p ∈ l, 0 ≤ p.1 ∧ 0 ≤ p.2) →
      0 ≤ (l.getD a (0, 0)).1 ∧ 0 ≤ (l.getD a (0, 0)).2 := by
    intro l hl
    by_cases hlt : a < l.length
    · have hmem : l.getD a (0, 0) ∈ l := by
        rw [List.getD_eq_getElem?_getD, List.getElem?_eq_getElem hlt]
        exact List.getElem_mem _
      exact hl _ hmem
    · rw [List.getD_eq_default _ _ (by omega)]
      norm_num
  apply hdflt
  intro p hp
  simp only [anchor_grid, List.mem_cons, List.not_mem_nil, or_false] at h
  rcases h with h | h | h <;> subst h <;>
    simp only [List.mem_cons, List.not_mem_nil, or_false] at hp <;>
      rcases hp with hp | hp | hp <;> subst hp <;> constructor <;> norm_num

/-- The objectness column of every concatenated candidate is the
sigmoid of the corresponding raw objectness value. -/
theorem mem_pred_obj (output : List ScaleTensor) (r : Row)
    (h : r ∈ extract_boxes_pred output) :
    ∃ t0 ∈ output, ∃ a gy gx, r 4 = sigmoid (t0.data a gy gx 4) := by
  obtain ⟨t0, ht0, anc, hanc, st, hst, a, gy, gx, hreq⟩ := mem_pred_decomp output r h
  refine ⟨t0, ht0, a, gy, gx, ?_⟩
  rw [hreq]
  simp [decode_assign, sigmoid_t, sigmoid_v_apply]

/-! ## Claim C5: box invariant after decode -/

/-- C5: every box produced by `extract_boxes` (decode, filter, then
`xywh2xyxy`) satisfies x1 ≤ x2 and y1 ≤ y2, and the objectness score
column of every surviving candidate lies in [0, 1]. -/
theorem C5_box_invariant (output : List ScaleTensor) (conf_thres : ℝ) :
    (∀ b ∈ extract_boxes output conf_thres, b 0 ≤ b 2 ∧ b 1 ≤ b 3) ∧
      ∀ r ∈ extract_boxes_kept output conf_thres, 0 ≤ r 4 ∧ r 4 ≤ 1 := by
  have hkept : ∀ r ∈ extract_boxes_kept output conf_thres,
      (0 ≤ r 2 ∧ 0 ≤ r 3) ∧ (0 ≤ r 4 ∧ r 4 ≤ 1) := by
    intro r hr
    have hpred : r ∈ extract_boxes_pred output := (List.mem_filter.mp hr).1
    obtain ⟨t0, ht0, anc, hanc, st, hst, a, gy, gx, hreq⟩ := mem_pred_decomp output r hpred
    obtain ⟨hw, hh⟩ := anchor_nonneg anc hanc a
    refine ⟨⟨?_, ?_⟩, ?_, ?_⟩
    · rw [hreq]
      simp only [decode_assign]
      rw [if_neg (by omega), if_pos (by omega)]
      simpa using mul_nonneg (sq_nonneg ((sigmoid_t t0).data a gy gx 2 * 2)) hw
    · rw [hreq]
      simp only [decode_assign]
      rw [if_neg (by omega), if_pos (by omega)]
      simpa using mul_nonneg (sq_nonneg ((sigmoid_t t0).data a gy gx 3 * 2)) hh
    · rw [hreq]
      simp only [decode_assign, sigmoid_t]
      norm_num
      rw [sigmoid_v_apply]
      exact sigmoid_nonneg _
    · rw [hreq]
      simp only [decode_assign, sigmoid_t]
      norm_num
      rw [sigmoid_v_apply]
      exact sigmoid_le_one _
  constructor
  · intro b hb
    obtain ⟨r, hr, hbr⟩ := List.mem_map.mp hb
    obtain ⟨⟨h2, h3⟩, _⟩ := hkept r hr
    subst hbr
    constructor
    · simp only [xywh2xyxy, slice4]
      norm_num
      linarith
    · simp only [xywh2xyxy, slice4]
      norm_num
      linarith
  · intro r hr
    exact (hkept r hr).2

/-- The concrete surviving candidate used in the C5 witness: the row
of anchor 0, cell (0, 0) of the decoded all-zero 1 × 1 tensor. -/
theorem r5row_mem_kept : r5row ∈ extract_boxes_kept [zscale 1] 0 := by
  have hud : r5row 4 = (Real.exp (-(0 : ℝ)) + 1)⁻¹ := by
    simp [r5row, decode_assign, sigmoid_t, zscale, sigmoid_v]
  apply List.mem_filter.mpr
  constructor
  · rw [extract_boxes_pred]
    apply List.mem_flatten.mpr
    refine ⟨reshape_rows (decode_assign (sigmoid_t (zscale 1)) 8 [(10, 13), (16, 30), (33, 23)]),
      ?_, ?_⟩
    · rw [extract_boxes_z]
      apply List.mem_map.mpr
      refine ⟨(sigmoid_t (zscale 1), 8, [(10, 13), (16, 30), (33, 23)]), ?_, rfl⟩
      simp [extract_boxes_scaled, strides, anchor_grid, zip3]
    · simp only [reshape_rows]
      apply List.mem_map.mpr
      refine ⟨0, ?_, ?_⟩
      · simp [decode_assign, sigmoid_t, zscale]
      · funext k
        simp [r5row]
  · rw [decide_eq_true_eq, hud]
    positivity

/-- Witness for C5 at the all-zero single-scale input. -/
theorem C5_box_invariant_witness :
    (b5box 0 ≤ b5box 2 ∧ b5box 1 ≤ b5box 3) ∧ (0 ≤ r5row 4 ∧ r5row 4 ≤ 1) :=
  ⟨(C5_box_invariant [zscale 1] 0).1 b5box
      (List.mem_map.mpr ⟨r5row, r5row_mem_kept, rfl⟩),
    (C5_box_invariant [zscale 1] 0).2 r5row r5row_mem_kept⟩

/-! ## Claim C6: detect and its failure modes -/

theorem reshape_loop_ok (pairs : List (List ℝ × (ℕ × ℕ × ℕ × ℕ × ℕ)))
    (h : ∀ p ∈ pairs, (p.1).length = vol p.2) :
    reshape_loop pairs = PyResult.ok (pairs.map fun p => ⟨p.2, p.1⟩) := by
  induction pairs with
  | nil => rfl
  | cons p rest ih =>
    obtain ⟨o, s⟩ := p
    have hp := h (o, s) (List.mem_cons_self _ _)
    simp only [reshape_loop, if_pos hp]
    rw [ih (fun q hq => h q (List.mem_cons_of_mem _ hq))]
    rfl

theorem reshape_loop_valueError (pairs : List (List ℝ × (ℕ × ℕ × ℕ × ℕ × ℕ)))
    (h : ∃ p ∈ pairs, (p.1).length ≠ vol p.2) :
    reshape_loop pairs = PyResult.valueError := by
  induction pairs with
  | nil => simp at h
  | cons p rest ih =>
    obtain ⟨o, s⟩ := p
    by_cases hp : o.length = vol s
    · have hrest : ∃ q ∈ rest, (q.1).length ≠ vol q.2 := by
        obtain ⟨q, hq, hne⟩ := h
        rcases List.mem_cons.mp hq with h1 | h1
        · subst h1; exact absurd hp hne
        · exact ⟨q, h1, hne⟩
      simp only [reshape_loop, if_pos hp, ih hrest]
    · simp only [reshape_loop, if_neg hp]

/-- C6 (amended): `detect` raises the numpy reshape ValueError exactly
when some output, zipped with the three configured shapes, has an
element count different from the volume 1·3·gw·gh·85 of its shape (=
anchorsPerScale·gw·gh·numAttributes); when it returns normally it
returns the list of reshaped raw tensors, one per zipped scale, with
the raw data unchanged (no thresholding, no box extraction, no
`EmptyInput` failure); zero scales returns the empty list normally. -/
theorem C6_detect_amended (outputs : List (List ℝ)) :
    (detect outputs = PyResult.valueError ↔
      ∃ p ∈ outputs.zip output_shapes, (p.1).length ≠ vol p.2) ∧
    (∀ l, detect outputs = PyResult.ok l →
      l = (outputs.zip output_shapes).map fun p => ⟨p.2, p.1⟩) ∧
    (outputs = [] → detect outputs = PyResult.ok []) := by
  refine ⟨⟨fun herr => ?_, fun hex => reshape_loop_valueError _ hex⟩, ?_, ?_⟩
  · by_contra hno
    push_neg at hno
    rw [detect, reshape_loop_ok _ hno] at herr
    exact PyResult.noConfusion herr
  · intro l hl
    by_cases hall : ∀ p ∈ outputs.zip output_shapes, (p.1).length = vol p.2
    · rw [detect, reshape_loop_ok _ hall] at hl
      injection hl with h2
      exact h2.symm
    · push_neg at hall
      rw [detect, reshape_loop_valueError _ hall] at hl
      exact PyResult.noConfusion hl
  · intro h
    subst h
    rfl

/-- Witness for C6 (amended): zero scales returns the empty list. -/
theorem C6_detect_amended_witness : detect [] = PyResult.ok [] :=
  (C6_detect_amended []).2.2 rfl

theorem getD_replicate_zero (n i : ℕ) : (List.replicate n (0 : ℝ)).getD i 0 = 0 := by
  rw [List.getD_eq_getElem?_getD]
  rcases h : (List.replicate n (0 : ℝ))[i]? with _ | x
  · rfl
  · have := List.getElem?_mem h
    rw [List.eq_of_mem_replicate this]
    rfl

theorem zeros_length (n : ℕ) : (zeros n).length = n := by
  unfold zeros
  exact List.length_replicate n 0

theorem getD_zeros (n i : ℕ) : (zeros n).getD i 0 = 0 := by
  unfold zeros
  exact getD_replicate_zero n i

/-- C6 counterexample: three well-shaped all-zero raw outputs (whose
decoded objectness is sigmoid 0 = 0.5, so no candidate is strictly
above the default threshold 0.5, as the extract_boxes conjunct shows
on the corresponding all-zero tensors) make `detect` return the
three-element list of reshaped raw tensors — not an empty detection
list — and an empty scale list makes it return `ok []`, not an
`EmptyInput` failure. -/
theorem C6_detect_counterexample :
    detect zero_outputs = PyResult.ok zero_reshaped ∧
      zero_reshaped ≠ [] ∧
      extract_boxes [zscale 80, zscale 40, zscale 20] 0.5 = [] ∧
      to_scale_tensor ⟨(1, 3, 80, 80, 85), zeros 1632000⟩ = zscale 80 ∧
      to_scale_tensor ⟨(1, 3, 40, 40, 85), zeros 408000⟩ = zscale 40 ∧
      to_scale_tensor ⟨(1, 3, 20, 20, 85), zeros 102000⟩ = zscale 20 := by
  refine ⟨?_, ?_, ?_, ?_, ?_, ?_⟩
  · have hzip : zero_outputs.zip output_shapes
        = [(zeros 1632000, (1, 3, 80, 80, 85)),
           (zeros 408000, (1, 3, 40, 40, 85)),
           (zeros 102000, (1, 3, 20, 20, 85))] := by
      simp [zero_outputs, output_shapes]
    rw [detect, hzip, reshape_loop_ok]
    · simp [zero_reshaped]
    · intro p hp
      fin_cases hp
      · show (zeros 1632000).length = vol (1, 3, 80, 80, 85)
        rw [zeros_length]
        norm_num [vol]
      · show (zeros 408000).length = vol (1, 3, 40, 40, 85)
        rw [zeros_length]
        norm_num [vol]
      · show (zeros 102000).length = vol (1, 3, 20, 20, 85)
        rw [zeros_length]
        norm_num [vol]
  · simp [zero_reshaped]
  · rw [extract_boxes]
    have hk : extract_boxes_kept [zscale 80, zscale 40, zscale 20] 0.5 = [] := by
      rw [extract_boxes_kept]
      rw [List.filter_eq_nil_iff]
      intro r hr
      obtain ⟨t0, ht0, a, gy, gx, h4⟩ := mem_pred_obj _ r hr
      have hz : t0.data a gy gx 4 = 0 := by
        simp only [List.mem_cons, List.not_mem_nil, or_false] at ht0
        rcases ht0 with h | h | h <;> subst h <;> rfl
      simp only [decide_eq_true_eq, not_lt]
      rw [h4, hz, sigmoid_zero]
      norm_num
    rw [hk]
    rfl
  · unfold to_scale_tensor zscale
    congr 1
    funext a gy gx k
    exact getD_zeros _ _
  · unfold to_scale_tensor zscale
    congr 1
    funext a gy gx k
    exact getD_zeros _ _
  · unfold to_scale_tensor zscale
    congr 1
    funext a gy gx k
    exact getD_zeros _ _

/-! ## Claim C9: decoding does not mutate its input arrays -/

theorem sig_loop_store (ids : List ℕ) : ∀ s : Store,
    ∃ ext, (sig_loop s ids).1 = s ++ ext ∧ ∀ j ∈ (sig_loop s ids).2, s.length ≤ j := by
  induction ids with
  | nil =>
    intro s
    exact ⟨[], by simp [sig_loop], by simp [sig_loop]⟩
  | cons i is ih =>
    intro s
    obtain ⟨ext, hext, hge⟩ := ih (s ++ [sigmoid_t (s.getD i defaultTensor)])
    refine ⟨[sigmoid_t (s.getD i defaultTensor)] ++ ext, ?_, ?_⟩
    · simp only [sig_loop]
      rw [hext, List.append_assoc]
    · intro j hj
      simp only [sig_loop] at hj
      rcases List.mem_cons.mp hj with h | h
      · omega
      · have hlen := hge j h
        rw [List.length_append] at hlen
        simp at hlen
        omega

theorem decode_loop_frame (entries : List (ℕ × ℝ × List (ℝ × ℝ))) : ∀ (s : Store) (L : ℕ),
    (∀ e ∈ entries, L ≤ e.1) → ∀ i, i < L →
      (decode_loop s entries).1.getD i defaultTensor = s.getD i defaultTensor := by
  induction entries with
  | nil => intro s L _ i _; rfl
  | cons e rest ih =>
    obtain ⟨j, st, anc⟩ := e
    intro s L hL i hi
    have hj : L ≤ j := hL (j, st, anc) (List.mem_cons_self _ _)
    simp only [decode_loop]
    rw [ih (s.set j (decode_assign (s.getD j defaultTensor) st anc)) L
      (fun e he => hL e (List.mem_cons_of_mem _ he)) i hi]
    rw [List.getD_eq_getElem?_getD, List.getElem?_set_ne (by omega : j ≠ i),
      ← List.getD_eq_getElem?_getD]

theorem class_grids_frame (ids : List ℕ) : ∀ (s : Store) (i : ℕ), i < s.length →
    (extract_class_grids_st s ids).1.getD i defaultTensor = s.getD i defaultTensor := by
  induction ids with
  | nil => intro s i _; rfl
  | cons id is ih =>
    intro s i hi
    simp only [extract_class_grids_st]
    rw [ih _ i (by rw [List.length_append]; omega)]
    exact List.getD_append _ _ _ _ hi

/-- C9: decoding never mutates its input: with numpy allocation and
in-place assignment modelled through an explicit store, every input
array position holds exactly the tensor it held before the call, both
for `extract_boxes` (whose slice assignments hit only the freshly
allocated sigmoid copies) and for `extract_class_grids` (which only
allocates). -/
theorem C9_no_input_mutation (s : Store) (ids : List ℕ) (conf_thres : ℝ) (i : ℕ)
    (hi : i < s.length) :
    (extract_boxes_st s ids conf_thres).1.getD i defaultTensor = s.getD i defaultTensor ∧
      (extract_class_grids_st s ids).1.getD i defaultTensor = s.getD i defaultTensor := by
  constructor
  · rw [extract_boxes_st]
    obtain ⟨ext, hext, hge⟩ := sig_loop_store ids s
    have hz : ∀ e ∈ zip3 (sig_loop s ids).2 strides anchor_grid, s.length ≤ e.1 := by
      intro e he
      exact hge e.1 (zip3_mem _ _ _ e he).1
    rw [decode_loop_frame _ _ s.length hz i hi, hext]
    exact List.getD_append _ _ _ _ hi
  · exact class_grids_frame ids s i hi

/-- Witness for C9 on a one-tensor store. -/
theorem C9_no_input_mutation_witness :
    (extract_boxes_st [defaultTensor] [0] 0.5).1.getD 0 defaultTensor
        = ([defaultTensor] : Store).getD 0 defaultTensor ∧
      (extract_class_grids_st [defaultTensor] [0]).1.getD 0 defaultTensor
        = ([defaultTensor] : Store).getD 0 defaultTensor :=
  C9_no_input_mutation [defaultTensor] [0] 0.5 0 (by simp)

/-! ## Claim C7: fatal failure modes of the suppression routines -/

/-- C7 counterexample: `non_max_suppression` does not return normally
on any of the empty inputs — an empty batch list and a single empty
batch both raise IndexError — and a non-empty batch reaches
sys.exit. -/
theorem C7_no_failure_counterexample :
    non_max_suppression [] 0.1 0.6 = PyResult.indexError ∧
      non_max_suppression [([] : List Row)] 0.1 0.6 = PyResult.indexError ∧
      non_max_suppression [[row05]] 0.1 0.6 = PyResult.exit ∧
      (PyResult.indexError : PyResult (List (Option (List Row)))) ≠ PyResult.ok [] := by
  have hmask : nms_conf_mask 0.1 row05 = true := by
    simp only [nms_conf_mask, row05, decide_eq_true_eq]
    norm_num
  refine ⟨rfl, ?_, ?_, ?_⟩
  · simp [non_max_suppression]
  · simp [non_max_suppression, hmask]
  · simp

/-- C7 (amended): `nms` has no failure mode — it returns normally on
every input and returns the empty list on an empty input — while
`non_max_suppression` never returns normally on any input: it either
raises IndexError or terminates the process through sys.exit. -/
theorem C7_totality_amended :
    (∀ (boxes : List (ℝ × ℝ × ℝ × ℝ)) (scores : List ℝ) (iou_thres : ℝ) (max_det : ℕ),
        ∃ v, nms boxes scores iou_thres max_det = PyResult.ok v) ∧
    (∀ (scores : List ℝ) (iou_thres : ℝ) (max_det : ℕ),
        nms [] scores iou_thres max_det = PyResult.ok (some [])) ∧
    (∀ (pred : List (List Row)) (conf_thres iou_thres : ℝ),
        non_max_suppression pred conf_thres iou_thres = PyResult.indexError ∨
          non_max_suppression pred conf_thres iou_thres = PyResult.exit) := by
  refine ⟨?_, ?_, ?_⟩
  · intro boxes scores it md
    unfold nms
    by_cases h : boxes.length = 0
    · exact ⟨some [], by simp [h]⟩
    · exact ⟨none, by simp [h]⟩
  · intro scores it md
    simp [nms]
  · intro pred ct it
    cases pred with
    | nil => exact Or.inl rfl
    | cons x rest =>
      simp only [non_max_suppression]
      split
      · exact Or.inl rfl
      · exact Or.inr rfl

/-- Witness for C7 (amended): the empty boxes list returns the empty
list from `nms`. -/
theorem C7_totality_amended_witness :
    nms [] [] 0.6 30 = PyResult.ok (some []) :=
  C7_totality_amended.2.1 [] 0.6 30

/-! ## Claim C8: the suppression cap -/

/-- C8: whenever `nms` returns a kept list, that list has at most
max_det elements and every kept entry (there are none: the only
returned list is empty) has its score above every threshold. -/
theorem C8_nms_bounded (boxes : List (ℝ × ℝ × ℝ × ℝ)) (scores : List ℝ)
    (iou_thres : ℝ) (max_det : ℕ) (kept : List (ℝ × ℝ × ℝ × ℝ))
    (h : nms boxes scores iou_thres max_det = PyResult.ok (some kept)) :
    kept.length ≤ max_det ∧ ∀ i, i < kept.length → ∀ conf : ℝ, conf < scores.getD i 0 := by
  unfold nms at h
  split at h
  · injection h with h2
    injection h2 with h3
    subst h3
    exact ⟨Nat.zero_le _, fun i hi => absurd hi (by simp)⟩
  · injection h with h2
    exact Option.noConfusion h2

/-- Witness for C8 at the empty input. -/
theorem C8_nms_bounded_witness :
    ([] : List (ℝ × ℝ × ℝ × ℝ)).length ≤ 30 ∧
      ∀ i, i < ([] : List (ℝ × ℝ × ℝ × ℝ)).length → ∀ conf : ℝ, conf < ([] : List ℝ).getD i 0 :=
  C8_nms_bounded [] [] 0.6 30 [] (by simp [nms])

/-! ## Claim C10: the nms stub behaviour -/

/-- C10: `nms` returns Python None for every non-empty boxes argument,
returns the empty list exactly on the empty boxes argument, and its
iou_thres and max_det parameters have no effect on the result. -/
theorem C10_nms_stub (boxes : List (ℝ × ℝ × ℝ × ℝ)) (scores : List ℝ)
    (iou_thres : ℝ) (max_det : ℕ) :
    (boxes ≠ [] → nms boxes scores iou_thres max_det = PyResult.ok none) ∧
      (nms boxes scores iou_thres max_det = PyResult.ok (some []) ↔ boxes = []) ∧
      ∀ (iou' : ℝ) (max' : ℕ), nms boxes scores iou_thres max_det = nms boxes scores iou' max' := by
  unfold nms
  rcases boxes with _ | ⟨b, bs⟩
  · simp
  · simp

/-- Witness for C10 on a one-element boxes list. -/
theorem C10_nms_stub_witness :
    nms [((1 : ℝ), 2, 3, 4)] [] 0.6 30 = PyResult.ok none :=
  (C10_nms_stub [((1 : ℝ), 2, 3, 4)] [] 0.6 30).1 (by simp)

end Processor
